import Mathlib

/-!
Shallow embedding of the RL trading decision engine (Stock-AI repository)
and verification of its specification claims.

Conventions:
* Python `float` values are modelled as `ℚ` (exact arithmetic capturing the
  intended real-number semantics); Python `int` as `ℤ`/`ℕ`.
* Fallible Python code (statements that can raise) is modelled with `Except`.
* numpy arrays are modelled as (nested) lists; array shapes are list lengths.
-/

/-- Python `int(q)` truncation toward zero of a rational. -/
def pyInt (q : ℚ) : ℤ := if 0 ≤ q then ⌊q⌋ else ⌈q⌉

/-- Python sequence slice `xs[-n:]`.  Note the `-0` quirk: `xs[-0:]` is
`xs[0:]`, the whole sequence, not the last zero elements. -/
def pyTailSlice (n : ℕ) (xs : List α) : List α :=
  if n = 0 then xs else xs.drop (xs.length - n)

/- ----------------------------------------------------------------
   src/trading/environment.py
   ---------------------------------------------------------------- -/

/-- Mutable simulation state of `PortfolioEnvironment`: `cash` and `shares`
(the other attributes set by `execute_action` are derived valuations). -/
structure PortfolioEnv where
  cash : ℚ
  shares : ℤ
deriving Repr, DecidableEq

/-- `get_portfolio_value`: `cash + shares * price`. -/
def PortfolioEnv.get_portfolio_value (env : PortfolioEnv) (price : ℚ) : ℚ :=
  env.cash + (env.shares : ℚ) * price

/-- The trade-applying block of `execute_action` (environment.py lines
26-45): BUY when `action > 0.1`, SELL when `action < -0.1`, otherwise no
change.  Python's `int(...)` is `pyInt`. -/
def tradeStep (action openPrice : ℚ) (env : PortfolioEnv) : PortfolioEnv :=
  let maxAffordableShares : ℤ :=
    if openPrice > 0 then pyInt (env.cash / openPrice) else 0
  let maxSellableShares : ℤ := env.shares
  if action > 1/10 then
    let sharesToBuy := min (pyInt (action * (maxAffordableShares : ℚ))) maxAffordableShares
    if sharesToBuy > 0 then
      ⟨env.cash - (sharesToBuy : ℚ) * openPrice, env.shares + sharesToBuy⟩
    else env
  else if action < -(1/10) then
    let sharesToSell := min (pyInt (|action| * (maxSellableShares : ℚ))) maxSellableShares
    if sharesToSell > 0 then
      ⟨env.cash + (sharesToSell : ℚ) * openPrice, env.shares - sharesToSell⟩
    else env
  else env

/-- The `trade_info` dictionary built at the end of `execute_action`. -/
structure TradeInfo where
  action : ℚ
  cash : ℚ
  shares : ℤ
  portfolio_value : ℚ
  reward : ℚ
  action_bonus : ℚ
  base_reward : ℚ
deriving Repr, DecidableEq

/-- The reward line of `execute_action` divides by the pre-trade close
valuation; in Python a zero divisor raises `ZeroDivisionError`. -/
inductive ZeroDivisionErr
  | floatDivisionByZero
deriving Repr, DecidableEq

/-- Result of one `execute_action` call: the (possibly raised) outcome and
the environment as mutated by the call (in Python the object mutation at
lines 26-45 survives even when line 48 raises). -/
structure StepResult where
  outcome : Except ZeroDivisionErr (ℚ × TradeInfo)
  env : PortfolioEnv
deriving Repr

/-- `PortfolioEnvironment.execute_action(action, open_price, close_price)`.
Valuations are taken before the trade, the trade block mutates cash/shares,
and the reward divides by the pre-trade close valuation (unguarded in the
source: a zero baseline raises).  Shaping: `|action| * 0.5` bonus whenever
`|action| > 0.1`, and a fixed `-0.1` when `-0.1 ≤ action ≤ 0.1`. -/
def execute_action (action openPrice closePrice : ℚ) (env : PortfolioEnv) :
    StepResult :=
  let valueCloseBaseline := env.get_portfolio_value closePrice
  let env' := tradeStep action openPrice env
  let portfolioValueEndDay := env'.get_portfolio_value closePrice
  if valueCloseBaseline = 0 then
    { outcome := .error .floatDivisionByZero, env := env' }
  else
    let baseReward := (portfolioValueEndDay - valueCloseBaseline) / valueCloseBaseline * 100
    let actionBonus : ℚ := if |action| > 1/10 then |action| * (1/2) else 0
    let holdPenalty : ℚ := if action ≤ 1/10 ∧ action ≥ -(1/10) then -(1/10) else 0
    let reward := baseReward + actionBonus + holdPenalty
    { outcome := .ok (reward,
      { action := action
        cash := env'.cash
        shares := env'.shares
        portfolio_value := portfolioValueEndDay
        reward := reward
        action_bonus := if |action| > 1/10 then actionBonus else 0
        base_reward := reward - (if |action| > 1/10 then actionBonus else 0)
          - (if action ≤ 1/10 ∧ action ≥ -(1/10) then holdPenalty else 0) })
      env := env' }

/- ----------------------------------------------------------------
   src/config.py  (shape constants)
   ---------------------------------------------------------------- -/

def MAX_DAYS_HISTORY : ℕ := 180
def MAX_NEWS_PER_DAY : ℕ := 5
/-- `len(STOCK_FEATURES)`: the 12 technical/price feature columns. -/
def NUM_STOCK_FEATURES : ℕ := 12
def BUFFER_SIZE : ℕ := 50

/- ----------------------------------------------------------------
   src/utils/data_preprocessing.py
   ---------------------------------------------------------------- -/

/-- A `State` dictionary produced by `create_state_representation`
(tensor fields as nested lists, scalar fields as rationals). -/
structure State where
  stock_history : List (List ℚ)
  stock_mask : List ℚ
  fundamentals : List ℚ
  news_articles : List (List (List ℚ))
  news_mask : List (List ℚ)
  portfolio_cash : ℚ
  portfolio_shares : ℚ
  current_price : ℚ
deriving Repr, DecidableEq, Inhabited

/-- The `{'articles': ..., 'mask': ...}` dictionary built by
`prepare_daily_news`. -/
structure DailyNews where
  articles : List (List (List ℚ))
  mask : List (List ℚ)
deriving Repr, DecidableEq

/-- One raw news item: a days-ago tag plus the three sentiment scalars
read by `prepare_daily_news`. -/
structure NewsArticle where
  days_ago : ℕ
  overall_sentiment_score : ℚ
  ticker_relevance_score : ℚ
  ticker_sentiment_score : ℚ
deriving Repr, DecidableEq

/-- The per-day bucket `daily_news[day]` of `prepare_daily_news`: feature
triples of the articles tagged with that `days_ago`, in input order. -/
def dayArticleFeatures (articles : List NewsArticle) (day : ℕ) : List (List ℚ) :=
  (articles.filter fun a => a.days_ago = day).map fun a =>
    [a.overall_sentiment_score, a.ticker_relevance_score, a.ticker_sentiment_score]

/-- `prepare_daily_news(df_news)`: buckets articles by `days_ago`, keeps the
first `MAX_NEWS_PER_DAY` per day, zero-fills remaining slots of the
`(MAX_DAYS_HISTORY, MAX_NEWS_PER_DAY, 3)` array and builds the parallel
0/1 mask. -/
def prepare_daily_news (articles : List NewsArticle) : DailyNews :=
  { articles := (List.range MAX_DAYS_HISTORY).map fun day =>
      let kept := (dayArticleFeatures articles day).take MAX_NEWS_PER_DAY
      (List.range MAX_NEWS_PER_DAY).map fun i => kept.getD i [0, 0, 0]
    mask := (List.range MAX_DAYS_HISTORY).map fun day =>
      let kept := (dayArticleFeatures articles day).take MAX_NEWS_PER_DAY
      (List.range MAX_NEWS_PER_DAY).map fun i => if i < kept.length then (1 : ℚ) else 0 }

/-- Ways `create_state_representation` can raise in Python. -/
inductive BuildError
  /-- numpy boolean indexing `stock_data[non_zero_mask]` with a mask whose
  length differs from the indexed axis raises `IndexError`. -/
  | boolIndexMismatch
  /-- `np.zeros(n)` with negative `n` raises `ValueError`. -/
  | negativeDimension
deriving Repr, DecidableEq

/-- numpy boolean-mask row selection `rows[mask]`; raises when the mask
length does not match the number of rows. -/
def boolIndex (mask : List Bool) (rows : List α) : Except BuildError (List α) :=
  if mask.length = rows.length then
    .ok ((rows.zip mask).filterMap fun p => if p.2 then some p.1 else none)
  else .error .boolIndexMismatch

/-- Column `j` of a row-major matrix (used as a scaler fit basis). -/
def featureColumn (rows : List (List ℚ)) (j : ℕ) : List ℚ :=
  rows.map fun r => r.getD j 0

def listMin : List ℚ → ℚ
  | [] => 0
  | x :: xs => xs.foldl min x

def listMax : List ℚ → ℚ
  | [] => 0
  | x :: xs => xs.foldl max x

/-- `MinMaxScaler(feature_range=(0,1))` transform of one entry: per-column
`(x - min) / (max - min)`, with sklearn's zero-range handling (a constant
column scales by 1). -/
def minmaxScale (fitRows : List (List ℚ)) (j : ℕ) (x : ℚ) : ℚ :=
  let mn := listMin (featureColumn fitRows j)
  let mx := listMax (featureColumn fitRows j)
  (x - mn) / (if mx - mn = 0 then 1 else mx - mn)

/-- `scaler.transform(rows)` after `scaler.fit(fitRows)`. -/
def transformRows (fitRows rows : List (List ℚ)) : List (List ℚ) :=
  rows.map fun r => r.enum.map fun p => minmaxScale fitRows p.1 p.2

/-- data_preprocessing.py line 112: `current_mask = stock_mask[-L:]` when
the mask is at least as long as the data window, otherwise an all-ones
fallback (`L` is `len(stock_data)`; note `pyTailSlice`'s `-0` quirk). -/
def computeCurrentMask (currentDataLength : ℕ) (stockMask : List ℚ) : List ℚ :=
  if currentDataLength ≤ stockMask.length then pyTailSlice currentDataLength stockMask
  else List.replicate currentDataLength 1

/-- data_preprocessing.py lines 114-120: fit a min-max scaler on the rows
selected by `current_mask == 1` (numpy boolean indexing, which raises on a
length mismatch) and transform all rows; skipped entirely when no mask
entry is `1` or when no row is selected. -/
def scaleStockData (stockData : List (List ℚ)) (currentMask : List ℚ) :
    Except BuildError (List (List ℚ)) :=
  if (currentMask.map fun m => decide (m = 1)).any id then
    (boolIndex (currentMask.map fun m => decide (m = 1)) stockData).map
      fun stockDataNonzero =>
        if stockDataNonzero.length > 0 then transformRows stockDataNonzero stockData
        else stockData
  else .ok stockData

/-- data_preprocessing.py lines 122-129: left zero-padding (rows of width
`len(STOCK_FEATURES)`, mask entries `0`) up to `MAX_DAYS_HISTORY`, or
truncation to the most recent `MAX_DAYS_HISTORY` rows.  The mask padding
count is `MAX_DAYS_HISTORY - len(current_mask)`; a negative count makes
`np.zeros` raise. -/
def padOrTruncate (stockScaled : List (List ℚ)) (currentMask : List ℚ) :
    Except BuildError (List (List ℚ) × List ℚ) :=
  if stockScaled.length < MAX_DAYS_HISTORY then
    if currentMask.length ≤ MAX_DAYS_HISTORY then
      .ok (List.replicate (MAX_DAYS_HISTORY - stockScaled.length)
             (List.replicate NUM_STOCK_FEATURES 0) ++ stockScaled,
           List.replicate (MAX_DAYS_HISTORY - currentMask.length) 0 ++ currentMask)
    else .error .negativeDimension
  else if stockScaled.length > MAX_DAYS_HISTORY then
    .ok (pyTailSlice MAX_DAYS_HISTORY stockScaled, pyTailSlice MAX_DAYS_HISTORY currentMask)
  else .ok (stockScaled, currentMask)

/-- The stock-history block of `create_state_representation`
(data_preprocessing.py lines 109-129): mask slicing, min-max scaling fit
on the unmasked rows only, then left zero-padding or truncation to
`MAX_DAYS_HISTORY` rows.  Returns the scaled/padded matrix and final mask.
(Scaling preserves the number of rows, so the pad/truncate block's
`len(stock_data)` equals the window length.) -/
def buildStockPart (window : List (List ℚ)) (stockMask : List ℚ) :
    Except BuildError (List (List ℚ) × List ℚ) :=
  (scaleStockData window (computeCurrentMask window.length stockMask)).bind
    fun stockScaled => padOrTruncate stockScaled (computeCurrentMask window.length stockMask)

/-- `create_state_representation(df_history, fundamental_features,
daily_news, stock_mask, portfolio_cash, portfolio_shares, current_price)`.
The history window is modelled as its `df_history[STOCK_FEATURES]` rows.
Fundamentals get a fresh single-sample `MinMaxScaler.fit_transform`;
portfolio scalars are normalized against `max(total_value, 1.0)` and the
price against `max(current_price, 1.0)`.  (`optimize_state_dict` only casts
dtypes and is the identity in this model.) -/
def create_state_representation (window : List (List ℚ))
    (fundamentalFeatures : List ℚ) (dailyNews : DailyNews) (stockMask : List ℚ)
    (portfolioCash : ℚ) (portfolioShares : ℤ) (currentPrice : ℚ) :
    Except BuildError State :=
  (buildStockPart window stockMask).map fun sd =>
    let fundamentalArray :=
      if fundamentalFeatures.length > 0 then
        (transformRows [fundamentalFeatures] [fundamentalFeatures]).headD []
      else fundamentalFeatures
    let portfolioTotalValue := portfolioCash + (portfolioShares : ℚ) * currentPrice
    { stock_history := sd.1
      stock_mask := sd.2
      fundamentals := fundamentalArray
      news_articles := dailyNews.articles
      news_mask := dailyNews.mask
      portfolio_cash := portfolioCash / max portfolioTotalValue 1
      portfolio_shares := ((portfolioShares : ℚ) * currentPrice) / max portfolioTotalValue 1
      current_price := currentPrice / max currentPrice 1 }

/- ----------------------------------------------------------------
   src/trading/live_trader.py
   ---------------------------------------------------------------- -/

/-- `np.clip(a, lo, hi)`. -/
def pyClip (a lo hi : ℚ) : ℚ := min (max a lo) hi

/-- live_trader.py line 84: `epsilon = max(0.2, 1.0 - buffer_size/100.0)`. -/
def liveEpsilon (bufferSize : ℕ) : ℚ := max (1/5) (1 - (bufferSize : ℚ) / 100)

/-- The live decision-policy block (live_trader.py lines 84-95):
with probability `epsilon` blend the model action with uniform noise at
weight `0.4`, otherwise keep the model action; always clip to `[-1, 1]`.
`randVal` is the `random.random()` draw, `noiseVal` the
`random.uniform(-1, 1)` draw. -/
def liveDecisionAction (baseAction : ℚ) (bufferSize : ℕ) (randVal noiseVal : ℚ) : ℚ :=
  let explorationWeight : ℚ := 4/10
  let action :=
    if randVal < liveEpsilon bufferSize then
      (1 - explorationWeight) * baseAction + explorationWeight * noiseVal
    else baseAction
  pyClip action (-1) 1

/-- live_trader.py lines 99-102: the stored `next_state` is a shallow copy
of `current_state` whose `portfolio_cash`, `portfolio_shares` and
`current_price` entries are overwritten with the raw post-trade cash, the
raw share count and the raw close price. -/
def liveNextState (currentState : State) (tradeCash : ℚ) (tradeShares : ℤ)
    (closePrice : ℚ) : State :=
  { currentState with
    portfolio_cash := tradeCash
    portfolio_shares := (tradeShares : ℚ)
    current_price := closePrice }

/- ----------------------------------------------------------------
   src/trading/simulator.py
   ---------------------------------------------------------------- -/

/-- simulator.py line 57: `epsilon = max(0.1, 1.0 - day_idx/100.0)` —
computed from the simulation day index. -/
def simEpsilon (dayIdx : ℕ) : ℚ := max (1/10) (1 - (dayIdx : ℚ) / 100)

/-- The batch-simulation decision-policy block (simulator.py lines 57-64):
noise weight `0.3`, epsilon from the day index, clip to `[-1, 1]`. -/
def simDecisionAction (baseAction : ℚ) (dayIdx : ℕ) (randVal noiseVal : ℚ) : ℚ :=
  let explorationWeight : ℚ := 3/10
  let action :=
    if randVal < simEpsilon dayIdx then
      (1 - explorationWeight) * baseAction + explorationWeight * noiseVal
    else baseAction
  pyClip action (-1) 1

/-- The epsilon formula exactly as claim C5 words it for the simulation call
site: computed from replay-buffer fullness with floor `0.1`.  (Spec-side
definition, for comparison with `simEpsilon` from the source.) -/
def claimSimEpsilon (bufferSize : ℕ) : ℚ := max (1/10) (1 - (bufferSize : ℚ) / 100)

/- ----------------------------------------------------------------
   src/trading/buffer.py
   ---------------------------------------------------------------- -/

/-- One stored experience record. -/
structure Experience where
  state : State
  action : ℚ
  reward : ℚ
  next_state : State
  done : Bool
deriving Repr, DecidableEq

/-- Shape check on a matrix: `rows` rows, each of width `cols`. -/
def matrixShape (m : List (List ℚ)) (rows cols : ℕ) : Bool :=
  m.length = rows && m.all fun r => r.length = cols

/-- Shape check on a rank-3 tensor. -/
def tensorShape (t : List (List (List ℚ))) (d0 d1 d2 : ℕ) : Bool :=
  t.length = d0 && t.all fun m => matrixShape m d1 d2

/-- `ExperienceReplayBuffer._validate_state_shape`: `stock_history` must be
`(MAX_DAYS_HISTORY, 12)` and `news_articles`
`(MAX_DAYS_HISTORY, MAX_NEWS_PER_DAY, 3)`; no other field is checked. -/
def validate_state_shape (s : State) : Bool :=
  matrixShape s.stock_history MAX_DAYS_HISTORY 12 &&
  tensorShape s.news_articles MAX_DAYS_HISTORY MAX_NEWS_PER_DAY 3

/-- `collections.deque(xs, maxlen=cap)` keeps the LAST `cap` elements. -/
def dequeTail (cap : ℕ) (xs : List α) : List α := xs.drop (xs.length - cap)

/-- What `pickle.load` can yield for the buffer file. -/
inductive BufferFile
  /-- no file at the path (`FileNotFoundError`) -/
  | missing
  /-- unreadable/corrupt storage (any other exception while reading) -/
  | corrupt
  /-- a readable serialized experience list -/
  | good (exps : List Experience)

/-- Errors `ExperienceReplayBuffer.load` could propagate (in the source it
propagates none: every exception is caught). -/
inductive LoadError
  | unreadable
deriving Repr, DecidableEq

/-- `ExperienceReplayBuffer.load(filepath)` (buffer.py lines 55-81) acting
on the current buffer contents.  Returns the new buffer list and the
reported `(kept, skipped)` counts.  A missing file leaves the buffer
untouched; ANY other exception is caught by the bare `except Exception`
and the buffer is replaced by an empty deque — nothing ever propagates,
hence the `Except` value is `.ok` in every case. -/
def ExperienceReplayBuffer.load (fc : BufferFile) (capacity : ℕ)
    (buffer : List Experience) : Except LoadError (List Experience × ℕ × ℕ) :=
  match fc with
  | .missing => .ok (buffer, 0, 0)
  | .corrupt => .ok ([], 0, 0)
  | .good exps =>
      let compatible := exps.filter fun e =>
        validate_state_shape e.state && validate_state_shape e.next_state
      .ok (dequeTail capacity compatible, compatible.length,
           exps.length - compatible.length)

/- ----------------------------------------------------------------
   src/trading_tracker.py
   ---------------------------------------------------------------- -/

/-- One `trading_sessions.json` record. -/
structure TradingSession where
  date : String
  timestamp : String
  action : ℚ
  reward : ℚ
  portfolio_value : ℚ
deriving Repr, DecidableEq

/-- The sessions JSON object, modelled as an insertion-ordered association
list (Python dicts preserve insertion order and hold each key once). -/
abbrev SessionMap := List (String × TradingSession)

/-- Python dict assignment `sessions[k] = v`: overwrite the entry holding
key `k` in place, or append a new entry when the key is absent. -/
def dictSet (m : SessionMap) (k : String) (v : TradingSession) : SessionMap :=
  if m.any fun p => p.1 = k then
    m.map fun p => if p.1 = k then (k, v) else p
  else m ++ [(k, v)]

/-- Number of entries of the map holding key `k`. -/
def countKey (m : SessionMap) (k : String) : ℕ :=
  (m.filter fun p => p.1 = k).length

/-- `has_traded_today()` for a given date key: `False` when the log file is
missing, otherwise dict membership of the date key. -/
def has_traded_today (todayId : String) (file : Option SessionMap) : Bool :=
  match file with
  | none => false
  | some sessions => sessions.any fun p => p.1 = todayId

/-- `record_trading_session(...)` for a given date key: read the log file
(missing file becomes the empty dict), overwrite-or-insert today's record,
and the result is written back. -/
def record_trading_session (todayId : String) (s : TradingSession)
    (file : Option SessionMap) : SessionMap :=
  dictSet (file.getD []) todayId s

/-- A run of `record_trading_session` calls starting from a missing log
file, in order. -/
def applyRecords (calls : List (String × TradingSession)) : SessionMap :=
  calls.foldl (fun m c => dictSet m c.1 c.2) []

/- ----------------------------------------------------------------
   src/trading/environment.py: class-definition-time default arguments
   ---------------------------------------------------------------- -/

/-- A deterministic generator standing in for `random`'s internal state
stepping (the claims only concern WHEN draws happen, not their law). -/
def lcgNext (s : ℕ) : ℕ := (1103515245 * s + 12345) % 2147483648

/-- `random.uniform(lo, hi)` modelled at generator state `s`: a value in
`[lo, hi)` derived deterministically from the state. -/
def randUniform (lo hi : ℚ) (s : ℕ) : ℚ :=
  lo + (hi - lo) * ((lcgNext s % 1000000 : ℕ) : ℚ) / 1000000

/-- `random.randint(lo, hi)` (inclusive bounds) at generator state `s`. -/
def randIntInclusive (lo hi : ℤ) (s : ℕ) : ℤ :=
  lo + (lcgNext s : ℤ) % (hi - lo + 1)

/-- The default-argument cell of `PortfolioEnvironment.__init__`. -/
structure ClassDefaults where
  initial_cash : ℚ
  initial_shares : ℤ
deriving Repr, DecidableEq

/-- Python evaluates default-argument expressions ONCE, when the `def`
statement executes at class-definition time: `random.uniform(1500,10000)`
and `random.randint(0,10)` are drawn here and stored on the function
object. -/
def portfolioEnvironmentDefaults (rngAtClassDef : ℕ) : ClassDefaults :=
  { initial_cash := randUniform 1500 10000 rngAtClassDef
    initial_shares := randIntInclusive 0 10 (lcgNext rngAtClassDef) }

/-- `PortfolioEnvironment()` with no arguments: `__init__` runs with the
stored defaults and `reset()` copies them into `cash`/`shares`.  The body
performs no random draw, so the generator state at call time
(`rngAtCall`) is never read. -/
def defaultConstruct (d : ClassDefaults) (rngAtCall : ℕ) : PortfolioEnv :=
  let _ := rngAtCall
  { cash := d.initial_cash, shares := d.initial_shares }

/-- `n` successive no-argument constructions within one process, threading
whatever generator state the process has at each construction. -/
def constructionTrace (d : ClassDefaults) : ℕ → ℕ → List PortfolioEnv
  | _, 0 => []
  | rng, n + 1 => defaultConstruct d rng :: constructionTrace d (lcgNext rng) n


/- ----------------------------------------------------------------
   Concrete demonstration values used by claim evidence
   ---------------------------------------------------------------- -/

/-- The `trade_info` record produced by the concrete no-trade BUY call used
as evidence for claim C7. -/
def demoInfoC7 : TradeInfo :=
  { action := 1/2, cash := 5, shares := 1, portfolio_value := 15,
    reward := 1/4, action_bonus := 1/4, base_reward := 0 }

/-- A shape-incompatible experience (all fields empty) used as concrete
evidence for claim C4. -/
def demoExpC4 : Experience :=
  { state := default, action := 0, reward := 0, next_state := default, done := false }

def dateA : String := "2024-01-02"
def dateB : String := "2024-01-03"

def demoSessionA : TradingSession :=
  { date := dateA, timestamp := dateA, action := 1/2, reward := 1/4, portfolio_value := 15 }

def demoSessionB : TradingSession :=
  { date := dateA, timestamp := dateA, action := 0, reward := 0, portfolio_value := 20 }

/- ----------------------------------------------------------------
   Helper lemmas
   ---------------------------------------------------------------- -/

theorem pyTailSlice_length_of_le {α : Type} (n : ℕ) (xs : List α)
    (hn : n ≠ 0) (h : n ≤ xs.length) : (pyTailSlice n xs).length = n := by
  simp [pyTailSlice, hn]
  omega

theorem pyTailSlice_subset {α : Type} (n : ℕ) (xs : List α) :
    pyTailSlice n xs ⊆ xs := by
  unfold pyTailSlice
  split
  · exact List.Subset.refl xs
  · exact List.drop_subset _ xs

theorem computeCurrentMask_length (L : ℕ) (stockMask : List ℚ) (hL : L ≠ 0) :
    (computeCurrentMask L stockMask).length = L := by
  unfold computeCurrentMask
  split
  · exact pyTailSlice_length_of_le L stockMask hL (by assumption)
  · exact List.length_replicate L 1

theorem transformRows_length (fitRows rows : List (List ℚ)) :
    (transformRows fitRows rows).length = rows.length := by
  simp [transformRows]

theorem transformRows_row_length (fitRows rows : List (List ℚ))
    (r : List ℚ) (hr : r ∈ transformRows fitRows rows) :
    ∃ r₀ ∈ rows, r.length = r₀.length := by
  unfold transformRows at hr
  obtain ⟨r₀, hr₀, hmap⟩ := List.mem_map.mp hr
  exact ⟨r₀, hr₀, by simp [← hmap]⟩

theorem scaleStockData_ok (stockData : List (List ℚ)) (currentMask : List ℚ)
    (h : currentMask.length = stockData.length) :
    ∃ s, scaleStockData stockData currentMask = .ok s ∧
      s.length = stockData.length ∧
      ∀ r ∈ s, ∃ r₀ ∈ stockData, r.length = r₀.length := by
  unfold scaleStockData
  split
  · have hlen : (currentMask.map fun m => decide (m = 1)).length = stockData.length := by
      simpa using h
    have hb : boolIndex (currentMask.map fun m => decide (m = 1)) stockData =
        .ok ((stockData.zip (currentMask.map fun m => decide (m = 1))).filterMap
          fun p => if p.2 then some p.1 else none) := by
      unfold boolIndex
      rw [if_pos hlen]
    rw [hb]
    simp only [Except.map]
    split
    · refine ⟨_, rfl, transformRows_length _ _, fun r hr => transformRows_row_length _ _ r hr⟩
    · exact ⟨stockData, rfl, rfl, fun r hr => ⟨r, hr, rfl⟩⟩
  · exact ⟨stockData, rfl, rfl, fun r hr => ⟨r, hr, rfl⟩⟩

theorem padOrTruncate_ok (stockScaled : List (List ℚ)) (currentMask : List ℚ)
    (h : currentMask.length = stockScaled.length) :
    ∃ sd cm, padOrTruncate stockScaled currentMask = .ok (sd, cm) ∧
      sd.length = MAX_DAYS_HISTORY ∧ cm.length = MAX_DAYS_HISTORY ∧
      ∀ r ∈ sd, r.length = NUM_STOCK_FEATURES ∨ r ∈ stockScaled := by
  unfold padOrTruncate
  rcases lt_trichotomy stockScaled.length MAX_DAYS_HISTORY with hlt | heq | hgt
  · rw [if_pos hlt, if_pos (by omega)]
    refine ⟨_, _, rfl, ?_, ?_, ?_⟩
    · simp; omega
    · simp; omega
    · intro r hr
      rcases List.mem_append.mp hr with hpad | hreal
      · exact Or.inl (by simpa using (List.eq_of_mem_replicate hpad) ▸ rfl)
      · exact Or.inr hreal
  · rw [if_neg (by omega), if_neg (by omega)]
    exact ⟨_, _, rfl, heq, by omega, fun r hr => Or.inr hr⟩
  · rw [if_neg (by omega), if_pos hgt]
    refine ⟨_, _, rfl, ?_, ?_, ?_⟩
    · exact pyTailSlice_length_of_le MAX_DAYS_HISTORY stockScaled
        (by norm_num [MAX_DAYS_HISTORY]) (by omega)
    · exact pyTailSlice_length_of_le MAX_DAYS_HISTORY currentMask
        (by norm_num [MAX_DAYS_HISTORY]) (by omega)
    · exact fun r hr => Or.inr (pyTailSlice_subset _ _ hr)

theorem buildStockPart_ok (window : List (List ℚ)) (stockMask : List ℚ)
    (hne : window ≠ []) (h12 : ∀ r ∈ window, r.length = 12) :
    ∃ sd cm, buildStockPart window stockMask = .ok (sd, cm) ∧
      sd.length = MAX_DAYS_HISTORY ∧ (∀ r ∈ sd, r.length = 12) ∧
      cm.length = MAX_DAYS_HISTORY := by
  have hL : window.length ≠ 0 := fun h => hne (List.length_eq_zero.mp h)
  have hcm : (computeCurrentMask window.length stockMask).length = window.length :=
    computeCurrentMask_length _ _ hL
  obtain ⟨s, hs, hslen, hsrows⟩ := scaleStockData_ok window _ hcm
  obtain ⟨sd, cm, hp, hsd, hcm', hrows⟩ :=
    padOrTruncate_ok s (computeCurrentMask window.length stockMask) (by omega)
  refine ⟨sd, cm, ?_, hsd, ?_, hcm'⟩
  · unfold buildStockPart
    rw [hs]
    simpa [Except.bind] using hp
  · intro r hr
    rcases hrows r hr with hl | hmem
    · simpa [NUM_STOCK_FEATURES] using hl
    · obtain ⟨r₀, hr₀, hlen⟩ := hsrows r hmem
      rw [hlen]
      exact h12 r₀ hr₀

theorem getD_mem_or_eq {α : Type} (l : List α) (i : ℕ) (d : α) :
    l.getD i d ∈ l ∨ l.getD i d = d := by
  by_cases h : i < l.length
  · left
    rw [List.getD_eq_getElem l d h]
    exact List.getElem_mem h
  · right
    exact List.getD_eq_default l d (le_of_not_lt h)

theorem dayArticleFeatures_row_length (articles : List NewsArticle) (day : ℕ)
    (c : List ℚ) (hc : c ∈ dayArticleFeatures articles day) : c.length = 3 := by
  unfold dayArticleFeatures at hc
  obtain ⟨a, _, ha⟩ := List.mem_map.mp hc
  simp [← ha]

theorem prepare_daily_news_shapes (articles : List NewsArticle) :
    (prepare_daily_news articles).articles.length = MAX_DAYS_HISTORY ∧
    (∀ m ∈ (prepare_daily_news articles).articles,
      m.length = MAX_NEWS_PER_DAY ∧ ∀ c ∈ m, c.length = 3) ∧
    (prepare_daily_news articles).mask.length = MAX_DAYS_HISTORY ∧
    (∀ m ∈ (prepare_daily_news articles).mask, m.length = MAX_NEWS_PER_DAY) := by
  refine ⟨by simp [prepare_daily_news], ?_, by simp [prepare_daily_news], ?_⟩
  · intro m hm
    simp only [prepare_daily_news, List.mem_map, List.mem_range] at hm
    obtain ⟨day, _, hm⟩ := hm
    refine ⟨by simp [← hm], ?_⟩
    intro c hc
    rw [← hm] at hc
    obtain ⟨i, _, hci⟩ := List.mem_map.mp hc
    rcases getD_mem_or_eq ((dayArticleFeatures articles day).take MAX_NEWS_PER_DAY) i [0, 0, 0]
      with hmem | hdef
    · rw [← hci]
      exact dayArticleFeatures_row_length articles day _ (List.mem_of_mem_take hmem)
    · rw [← hci, hdef]
      rfl
  · intro m hm
    simp only [prepare_daily_news, List.mem_map, List.mem_range] at hm
    obtain ⟨day, _, hm⟩ := hm
    simp [← hm]

theorem create_state_ok (window : List (List ℚ)) (fund : List ℚ)
    (dailyNews : DailyNews) (stockMask : List ℚ) (cash : ℚ) (sh : ℤ) (price : ℚ)
    (sd : List (List ℚ)) (cm : List ℚ)
    (hb : buildStockPart window stockMask = .ok (sd, cm)) :
    create_state_representation window fund dailyNews stockMask cash sh price = .ok
      { stock_history := sd
        stock_mask := cm
        fundamentals :=
          if fund.length > 0 then (transformRows [fund] [fund]).headD [] else fund
        news_articles := dailyNews.articles
        news_mask := dailyNews.mask
        portfolio_cash := cash / max (cash + (sh : ℚ) * price) 1
        portfolio_shares := ((sh : ℚ) * price) / max (cash + (sh : ℚ) * price) 1
        current_price := price / max price 1 } := by
  unfold create_state_representation
  rw [hb]
  rfl

/- ----------------------------------------------------------------
   Claim theorems
   ---------------------------------------------------------------- -/

/-- Claim C8 (amended): for every NONEMPTY input history window — shorter
than, exactly, or longer than `MAX_DAYS_HISTORY` — and any stock mask, the
State Builder succeeds and its output has `stock_history` of shape
`(180, 12)`, a parallel length-180 `stock_mask`, `news_articles` of shape
`(180, 5, 3)` and a parallel `(180, 5)` `news_mask` (news arrays coming
from `prepare_daily_news`). -/
theorem state_builder_shapes (window : List (List ℚ)) (fund : List ℚ)
    (articles : List NewsArticle) (stockMask : List ℚ)
    (cash : ℚ) (sh : ℤ) (price : ℚ)
    (hne : window ≠ []) (h12 : ∀ r ∈ window, r.length = 12) :
    ∃ s, create_state_representation window fund (prepare_daily_news articles)
        stockMask cash sh price = .ok s ∧
      s.stock_history.length = MAX_DAYS_HISTORY ∧
      (∀ r ∈ s.stock_history, r.length = 12) ∧
      s.stock_mask.length = MAX_DAYS_HISTORY ∧
      s.news_articles.length = MAX_DAYS_HISTORY ∧
      (∀ m ∈ s.news_articles, m.length = MAX_NEWS_PER_DAY ∧ ∀ c ∈ m, c.length = 3) ∧
      s.news_mask.length = MAX_DAYS_HISTORY ∧
      (∀ m ∈ s.news_mask, m.length = MAX_NEWS_PER_DAY) := by
  obtain ⟨sd, cm, hb, hsd, hrows, hcm⟩ := buildStockPart_ok window stockMask hne h12
  obtain ⟨hna, hnam, hnm, hnmm⟩ := prepare_daily_news_shapes articles
  exact ⟨_, create_state_ok window fund (prepare_daily_news articles) stockMask
    cash sh price sd cm hb, hsd, hrows, hcm, hna, hnam, hnm, hnmm⟩

/-- Claim C8 (counterexample): with an EMPTY history window and a standard
length-180 mask containing real (`1`) entries, the builder does not return
any state at all: `stock_mask[-0:]` is the whole mask (Python slicing
quirk), the scaler branch is entered, and numpy boolean indexing of the
empty row array with a length-180 mask raises `IndexError`. -/
theorem state_builder_empty_window_raises :
    create_state_representation [] [] (prepare_daily_news [])
      (List.replicate 180 1) 0 0 10 = .error .boolIndexMismatch := by
  have h1 : computeCurrentMask (List.length ([] : List (List ℚ)))
      (List.replicate 180 (1 : ℚ)) = List.replicate 180 1 := by
    unfold computeCurrentMask
    rw [if_pos (by rw [List.length_nil]; exact Nat.zero_le _)]
    rw [List.length_nil]
    unfold pyTailSlice
    rw [if_pos rfl]
  have h2 : scaleStockData ([] : List (List ℚ)) (List.replicate 180 1) =
      .error .boolIndexMismatch := by
    unfold scaleStockData
    rw [if_pos ?hany]
    case hany =>
      rw [List.map_replicate, List.any_eq_true]
      exact ⟨decide ((1 : ℚ) = 1), List.mem_replicate.mpr ⟨by norm_num, rfl⟩,
        decide_eq_true rfl⟩
    unfold boolIndex
    rw [if_neg (by rw [List.length_map, List.length_replicate, List.length_nil]; omega)]
    rfl
  unfold create_state_representation buildStockPart
  rw [h1, h2]
  rfl

/-- Claim C8 witness: the amended shape theorem instantiated at a concrete
one-row window with a singleton mask. -/
theorem state_builder_shapes_witness :
    ∃ s, create_state_representation [List.replicate 12 0] [] (prepare_daily_news [])
        [1] 0 0 10 = .ok s ∧
      s.stock_history.length = MAX_DAYS_HISTORY ∧
      (∀ r ∈ s.stock_history, r.length = 12) ∧
      s.stock_mask.length = MAX_DAYS_HISTORY ∧
      s.news_articles.length = MAX_DAYS_HISTORY ∧
      (∀ m ∈ s.news_articles, m.length = MAX_NEWS_PER_DAY ∧ ∀ c ∈ m, c.length = 3) ∧
      s.news_mask.length = MAX_DAYS_HISTORY ∧
      (∀ m ∈ s.news_mask, m.length = MAX_NEWS_PER_DAY) :=
  state_builder_shapes [List.replicate 12 0] [] [] [1] 0 0 10 (by simp)
    (by intro r hr; simp only [List.mem_singleton] at hr; simp [hr])

/-- Claim C1 (code-bug evidence): the division by the pre-trade close
valuation in `execute_action` is NOT guarded.  With pre-trade `cash = 0`
and `shares = 0` the baseline `cash + shares*close_price` is `0` and the
call raises `ZeroDivisionError` instead of returning a zero base reward as
the specification requires. -/
theorem execute_action_zero_baseline_raises :
    (execute_action 0 10 10 ⟨0, 0⟩).outcome = .error .floatDivisionByZero := by
  simp only [execute_action, PortfolioEnv.get_portfolio_value]
  norm_num

/-- Claim C2 (counterexample): the live decision cycle's stored
`next_state` is NOT the State Representation Builder's output.  At a
concrete post-trade point (cash `5`, shares `1`, close price `20`) the
stored `next_state` carries the raw close price `20` in `current_price`,
while `create_state_representation` at the same post-trade inputs
self-normalizes the price to `1`. -/
theorem liveNextState_not_builder_output :
    (liveNextState ((create_state_representation [List.replicate 12 0] []
        (prepare_daily_news []) [1] 1500 0 10).toOption.getD default) 5 1 20).current_price
      = 20 ∧
    ((create_state_representation [List.replicate 12 0] [] (prepare_daily_news []) [1]
        5 1 20).map State.current_price) = .ok 1 ∧
    (20 : ℚ) ≠ 1 := by
  refine ⟨rfl, ?_, by norm_num⟩
  obtain ⟨sd, cm, hb, -, -, -⟩ := buildStockPart_ok [List.replicate 12 0] [1]
    (by simp) (by intro r hr; simp only [List.mem_singleton] at hr; simp [hr])
  rw [create_state_ok [List.replicate 12 0] [] (prepare_daily_news []) [1] 5 1 20 sd cm hb]
  simp only [Except.map, Except.ok.injEq]
  norm_num

/-- Claim C2 (amended): the live decision cycle's `next_state` is a shallow
copy of the current state whose `portfolio_cash` / `portfolio_shares` are
overwritten with the raw post-trade cash and share count and whose
`current_price` is the raw close price; every tensor field is inherited
unchanged from the current state, so the copy passes the buffer's shape
validation exactly when the current state does (but its scalar fields do
not satisfy the builder's normalization contract). -/
theorem liveNextState_shallow_copy (cs : State) (c : ℚ) (sh : ℤ) (p : ℚ) :
    (liveNextState cs c sh p).stock_history = cs.stock_history ∧
    (liveNextState cs c sh p).stock_mask = cs.stock_mask ∧
    (liveNextState cs c sh p).fundamentals = cs.fundamentals ∧
    (liveNextState cs c sh p).news_articles = cs.news_articles ∧
    (liveNextState cs c sh p).news_mask = cs.news_mask ∧
    (liveNextState cs c sh p).portfolio_cash = c ∧
    (liveNextState cs c sh p).portfolio_shares = (sh : ℚ) ∧
    (liveNextState cs c sh p).current_price = p ∧
    validate_state_shape (liveNextState cs c sh p) = validate_state_shape cs := by
  refine ⟨rfl, rfl, rfl, rfl, rfl, rfl, rfl, rfl, ?_⟩
  simp [validate_state_shape, liveNextState]

/-- Claim C5 (counterexample): at the batch-simulation call site the
exploration probability is computed from the day index, not from
replay-buffer fullness.  On simulation day `0` with a loaded buffer of `50`
experiences (reachable: 50 is the buffer capacity), the code's epsilon is
`1`, while the claimed formula `max(0.1, 1 - buffer_size/100)` gives
`1/2`. -/
theorem sim_epsilon_not_buffer_based :
    simEpsilon 0 = 1 ∧ claimSimEpsilon 50 = 1/2 ∧ simEpsilon 0 ≠ claimSimEpsilon 50 := by
  unfold simEpsilon claimSimEpsilon
  norm_num [max_def]

/-- Claim C5 (amended): the live call site computes
`epsilon = max(0.2, 1 - buffer_size/100)` from replay-buffer fullness and
blends with weight `0.4`; the batch-simulation call site computes
`epsilon = max(0.1, 1 - day_idx/100)` from the DAY INDEX and blends with
weight `0.3`.  In both, when the uniform draw falls below epsilon the
action is `(1-w)*model_action + w*noise`, otherwise the model action, and
the result is always clipped to `[-1, 1]`. -/
theorem decision_policy_spec (b : ℚ) (sz d : ℕ) (r n : ℚ) :
    liveEpsilon sz = max (1/5) (1 - (sz : ℚ) / 100) ∧
    simEpsilon d = max (1/10) (1 - (d : ℚ) / 100) ∧
    liveDecisionAction b sz r n =
      pyClip (if r < liveEpsilon sz then (1 - 4/10) * b + (4/10) * n else b) (-1) 1 ∧
    simDecisionAction b d r n =
      pyClip (if r < simEpsilon d then (1 - 3/10) * b + (3/10) * n else b) (-1) 1 ∧
    -1 ≤ liveDecisionAction b sz r n ∧ liveDecisionAction b sz r n ≤ 1 ∧
    -1 ≤ simDecisionAction b d r n ∧ simDecisionAction b d r n ≤ 1 := by
  refine ⟨rfl, rfl, rfl, rfl, ?_, ?_, ?_, ?_⟩ <;>
    simp [liveDecisionAction, simDecisionAction, pyClip, le_min_iff, min_le_iff]

/-- Claim C6 (counterexample): `create_state_representation` does not
always set `current_price` to exactly `1.0`.  At the sub-dollar raw price
`1/2` the output's `current_price` is `1/2`. -/
theorem current_price_not_always_one :
    ((create_state_representation [List.replicate 12 0] [] (prepare_daily_news []) [1]
        0 0 (1/2)).map State.current_price) = .ok (1/2) ∧
    ((1 : ℚ)/2) ≠ 1 := by
  refine ⟨?_, by norm_num⟩
  obtain ⟨sd, cm, hb, -, -, -⟩ := buildStockPart_ok [List.replicate 12 0] [1]
    (by simp) (by intro r hr; simp only [List.mem_singleton] at hr; simp [hr])
  rw [create_state_ok [List.replicate 12 0] [] (prepare_daily_news []) [1] 0 0 (1/2) sd cm hb]
  simp only [Except.map, Except.ok.injEq]
  norm_num [max_def]

/-- Claim C6 (amended): the returned `current_price` equals
`raw_price / max(raw_price, 1)`: it is exactly `1` whenever the raw price
is at least `1`, and it equals the raw price itself when
`0 ≤ raw_price < 1`. -/
theorem create_state_current_price (window : List (List ℚ)) (fund : List ℚ)
    (dailyNews : DailyNews) (stockMask : List ℚ) (cash : ℚ) (sh : ℤ) (price : ℚ)
    (s : State)
    (h : create_state_representation window fund dailyNews stockMask cash sh price = .ok s) :
    s.current_price = price / max price 1 ∧
    (1 ≤ price → s.current_price = 1) ∧
    (0 ≤ price → price < 1 → s.current_price = price) := by
  unfold create_state_representation at h
  cases hb : buildStockPart window stockMask with
  | error e => rw [hb] at h; exact absurd h (by simp [Except.map])
  | ok v =>
      rw [hb] at h
      simp only [Except.map, Except.ok.injEq] at h
      subst h
      refine ⟨rfl, ?_, ?_⟩
      · intro hp
        have hmax : max price 1 = price := max_eq_left hp
        have hpos : price ≠ 0 := by positivity
        show price / max price 1 = 1
        rw [hmax, div_self hpos]
      · intro h0 h1
        have hmax : max price 1 = 1 := max_eq_right (le_of_lt h1)
        show price / max price 1 = price
        rw [hmax, div_one]

/-- Claim C6 witness: the amended statement at a concrete raw price `3`. -/
theorem create_state_current_price_witness :
    ∃ s, create_state_representation [List.replicate 12 0] [] (prepare_daily_news [])
        [1] 0 0 3 = .ok s ∧ s.current_price = 1 := by
  obtain ⟨sd, cm, hb, -, -, -⟩ := buildStockPart_ok [List.replicate 12 0] [1]
    (by simp) (by intro r hr; simp only [List.mem_singleton] at hr; simp [hr])
  have h := create_state_ok [List.replicate 12 0] [] (prepare_daily_news []) [1] 0 0 3 sd cm hb
  exact ⟨_, h, (create_state_current_price _ _ _ _ _ _ _ _ h).2.1 (by norm_num)⟩

theorem pyInt_of_nonneg (q : ℚ) (h : 0 ≤ q) : pyInt q = ⌊q⌋ := if_pos h

/-- The environment object `execute_action` leaves behind is exactly the
trade block's update, whether or not the reward line raises. -/
theorem execute_action_env (a o c : ℚ) (env : PortfolioEnv) :
    (execute_action a o c env).env = tradeStep a o env := by
  simp only [execute_action]
  by_cases h : env.get_portfolio_value c = 0
  · rw [if_pos h]
  · rw [if_neg h]

theorem tradeStep_hold (a o : ℚ) (env : PortfolioEnv)
    (hlo : -(1/10) ≤ a) (hhi : a ≤ 1/10) : tradeStep a o env = env := by
  simp only [tradeStep]
  rw [if_neg (not_lt.mpr hhi), if_neg (not_lt.mpr hlo)]


theorem tradeStep_buy (a o : ℚ) (cash : ℚ) (sh : ℤ)
    (ha : 1/10 < a) (ho : 0 ≤ o) (hcash : 0 ≤ cash) :
    (tradeStep a o ⟨cash, sh⟩).shares - sh ≤ ⌊cash / o⌋ ∧
    0 ≤ (tradeStep a o ⟨cash, sh⟩).cash := by
  simp only [tradeStep]
  rw [if_pos ha]
  rcases eq_or_lt_of_le ho with ho0 | hopos
  · subst ho0
    rw [if_neg (lt_irrefl 0)]
    have hz : pyInt (a * ((0 : ℤ) : ℚ)) = 0 := by simp [pyInt]
    rw [hz, min_self, if_neg (lt_irrefl 0)]
    refine ⟨?_, hcash⟩
    exact (by simp [div_zero] : sh - sh ≤ ⌊cash / (0 : ℚ)⌋)
  · rw [if_pos hopos]
    have hfloor : pyInt (cash / o) = ⌊cash / o⌋ :=
      pyInt_of_nonneg _ (div_nonneg hcash (le_of_lt hopos))
    rw [hfloor]
    have hm0 : 0 ≤ ⌊cash / o⌋ := Int.floor_nonneg.mpr (div_nonneg hcash (le_of_lt hopos))
    set stb : ℤ := min (pyInt (a * ((⌊cash / o⌋ : ℤ) : ℚ))) ⌊cash / o⌋ with hstb
    have hstb_le : stb ≤ ⌊cash / o⌋ := min_le_right _ _
    by_cases hpos : stb > 0
    · rw [if_pos hpos]
      refine ⟨(by omega : sh + stb - sh ≤ ⌊cash / o⌋), ?_⟩
      have h1 : ((stb : ℤ) : ℚ) ≤ cash / o :=
        le_trans (by exact_mod_cast hstb_le) (Int.floor_le _)
      have h2 : ((stb : ℤ) : ℚ) * o ≤ cash := by
        have h3 := mul_le_mul_of_nonneg_right h1 (le_of_lt hopos)
        rwa [div_mul_cancel₀ cash (ne_of_gt hopos)] at h3
      exact (by linarith : 0 ≤ cash - ((stb : ℤ) : ℚ) * o)
    · rw [if_neg hpos]
      exact ⟨(by omega : sh - sh ≤ ⌊cash / o⌋), hcash⟩

theorem tradeStep_sell (a o : ℚ) (cash : ℚ) (sh : ℤ)
    (ha : a < -(1/10)) (hsh : 0 ≤ sh) :
    sh - (tradeStep a o ⟨cash, sh⟩).shares ≤ sh ∧
    0 ≤ (tradeStep a o ⟨cash, sh⟩).shares := by
  simp only [tradeStep]
  rw [if_neg (by push_neg; linarith), if_pos ha]
  set sts : ℤ := min (pyInt (|a| * (sh : ℚ))) sh with hsts
  have hle : sts ≤ sh := min_le_right _ _
  by_cases hpos : sts > 0
  · rw [if_pos hpos]
    exact ⟨(by omega : sh - (sh - sts) ≤ sh), (by omega : (0 : ℤ) ≤ sh - sts)⟩
  · rw [if_neg hpos]
    exact ⟨(by omega : sh - sh ≤ sh), hsh⟩

/-- Claim C3: the trade bounds of `execute_action`.  Dead zone
`-0.1 ≤ a ≤ 0.1` leaves cash and shares unchanged; a buy (`a > 0.1`, with
a nonnegative open price and nonnegative pre-trade cash) buys at most
`⌊cash/open_price⌋` shares and leaves nonnegative cash; a sell
(`a < -0.1`, with nonnegative pre-trade shares) sells at most the pre-trade
share count and leaves nonnegative shares. -/
theorem execute_action_trade_bounds (a o c cash : ℚ) (sh : ℤ) :
    ((-(1/10) ≤ a ∧ a ≤ 1/10) → (execute_action a o c ⟨cash, sh⟩).env = ⟨cash, sh⟩) ∧
    (1/10 < a → 0 ≤ o → 0 ≤ cash →
      ((execute_action a o c ⟨cash, sh⟩).env.shares - sh ≤ ⌊cash / o⌋ ∧
       0 ≤ (execute_action a o c ⟨cash, sh⟩).env.cash)) ∧
    (a < -(1/10) → 0 ≤ sh →
      (sh - (execute_action a o c ⟨cash, sh⟩).env.shares ≤ sh ∧
       0 ≤ (execute_action a o c ⟨cash, sh⟩).env.shares)) := by
  simp only [execute_action_env]
  exact ⟨fun ⟨hlo, hhi⟩ => tradeStep_hold a o _ hlo hhi,
    fun ha ho hcash => tradeStep_buy a o cash sh ha ho hcash,
    fun ha hsh => tradeStep_sell a o cash sh ha hsh⟩

/-- Claim C3 witness: dead-zone, buy and sell bounds at concrete inputs
(`a = 0`, `a = 1`, `a = -1`; open/close `10`; cash `25`; shares `0` or
`3`). -/
theorem execute_action_trade_bounds_witness :
    ((execute_action 0 10 10 ⟨25, 0⟩).env = ⟨25, 0⟩) ∧
    ((execute_action 1 10 10 ⟨25, 0⟩).env.shares - 0 ≤ ⌊(25 : ℚ) / 10⌋ ∧
     0 ≤ (execute_action 1 10 10 ⟨25, 0⟩).env.cash) ∧
    ((3 : ℤ) - (execute_action (-1) 10 10 ⟨25, 3⟩).env.shares ≤ 3 ∧
     0 ≤ (execute_action (-1) 10 10 ⟨25, 3⟩).env.shares) :=
  ⟨(execute_action_trade_bounds 0 10 10 25 0).1 (by norm_num),
   (execute_action_trade_bounds 1 10 10 25 0).2.1 (by norm_num) (by norm_num) (by norm_num),
   (execute_action_trade_bounds (-1) 10 10 25 3).2.2 (by norm_num) (by norm_num)⟩

theorem tradeStep_demo_noop : tradeStep (1/2) 10 (⟨5, 1⟩ : PortfolioEnv) = ⟨5, 1⟩ := by
  simp only [tradeStep]
  rw [if_pos (by norm_num : (1 : ℚ)/10 < 1/2), if_pos (by norm_num : (0 : ℚ) < 10)]
  have h1 : pyInt ((5 : ℚ) / 10) = 0 := by
    rw [pyInt_of_nonneg _ (by norm_num)]
    norm_num [Int.floor_eq_zero_iff]
  rw [h1]
  have h2 : pyInt ((1 : ℚ)/2 * ((0 : ℤ) : ℚ)) = 0 := by simp [pyInt]
  rw [h2, min_self, if_neg (lt_irrefl 0)]

theorem execute_action_demo_eval :
    (execute_action (1/2) 10 10 ⟨5, 1⟩).outcome = .ok (1/4, demoInfoC7) := by
  simp only [execute_action, PortfolioEnv.get_portfolio_value, tradeStep_demo_noop]
  rw [if_neg (by norm_num : ¬((5 : ℚ) + ((1 : ℤ) : ℚ) * 10 = 0))]
  have habs : |(1 : ℚ)/2| = 1/2 := abs_of_pos (by norm_num)
  have hd : ¬((1 : ℚ)/2 ≤ 1/10 ∧ (1 : ℚ)/2 ≥ -(1/10)) := by
    rintro ⟨h, -⟩
    norm_num at h
  norm_num [demoInfoC7, habs, hd]

/-- Claim C7 (counterexample): the risk-taking bonus is granted on action
magnitude alone, not on an actual trade.  At `action = 1/2` with cash `5`
and open price `10` no share can be bought (`⌊5/10⌋ = 0`), cash and shares
are unchanged, yet the reported `action_bonus` is `1/4 ≠ 0` and it is
added to the reward. -/
theorem bonus_without_trade :
    (execute_action (1/2) 10 10 ⟨5, 1⟩).env = ⟨5, 1⟩ ∧
    ((execute_action (1/2) 10 10 ⟨5, 1⟩).outcome.map fun p => p.2.action_bonus)
      = .ok (1/4) ∧
    ((1 : ℚ)/4) ≠ 0 := by
  refine ⟨?_, ?_, by norm_num⟩
  · rw [execute_action_env, tradeStep_demo_noop]
  · rw [execute_action_demo_eval]
    rfl

/-- Claim C7 (amended): in `execute_action` the risk-taking bonus
`|action| * 0.5` is added exactly when `|action| > 0.1` — whether or not
any shares actually changed hands — and the fixed `0.1` hold penalty is
subtracted exactly when the action lies in the dead zone; for every action
exactly one of the two shaping terms applies. -/
theorem execute_action_shaping (a o c : ℚ) (env : PortfolioEnv) (r : ℚ)
    (info : TradeInfo)
    (h : (execute_action a o c env).outcome = .ok (r, info)) :
    info.action_bonus = (if |a| > 1/10 then |a| * (1/2) else 0) ∧
    r = info.base_reward + (if |a| > 1/10 then |a| * (1/2) else 0)
        + (if a ≤ 1/10 ∧ a ≥ -(1/10) then -(1/10) else 0) ∧
    ((|a| > 1/10) ↔ ¬(a ≤ 1/10 ∧ a ≥ -(1/10))) := by
  simp only [execute_action] at h
  by_cases hz : env.get_portfolio_value c = 0
  · rw [if_pos hz] at h
    exact absurd h (by simp)
  · rw [if_neg hz] at h
    simp only [Except.ok.injEq, Prod.mk.injEq] at h
    obtain ⟨hr, hinfo⟩ := h
    subst hr
    subst hinfo
    refine ⟨?_, ?_, ?_⟩
    · by_cases hb : |a| > 1/10
      · simp only [if_pos hb]
      · simp only [if_neg hb]
    · split_ifs <;> ring
    · have hiff : (a ≤ 1/10 ∧ a ≥ -(1/10)) ↔ |a| ≤ 1/10 := by
        rw [abs_le]
        exact ⟨fun ⟨x, y⟩ => ⟨y, x⟩, fun ⟨x, y⟩ => ⟨y, x⟩⟩
      rw [hiff]
      exact lt_iff_not_le

/-- Claim C7 witness: the amended shaping statement at the concrete
no-trade BUY call (`action = 1/2`). -/
theorem execute_action_shaping_witness :
    demoInfoC7.action_bonus = (if |(1 : ℚ)/2| > 1/10 then |(1 : ℚ)/2| * (1/2) else 0) ∧
    (1 : ℚ)/4 = demoInfoC7.base_reward + (if |(1 : ℚ)/2| > 1/10 then |(1 : ℚ)/2| * (1/2) else 0)
        + (if (1 : ℚ)/2 ≤ 1/10 ∧ (1 : ℚ)/2 ≥ -(1/10) then -(1/10) else 0) ∧
    ((|(1 : ℚ)/2| > 1/10) ↔ ¬((1 : ℚ)/2 ≤ 1/10 ∧ (1 : ℚ)/2 ≥ -(1/10))) :=
  execute_action_shaping (1/2) 10 10 ⟨5, 1⟩ (1/4) demoInfoC7 execute_action_demo_eval

/-- Claim C4 (counterexample): a corrupt buffer file does NOT propagate as
an error.  `load` on corrupt storage returns normally (`.ok`) and silently
replaces the previous buffer contents with an empty buffer. -/
theorem corrupt_load_swallowed :
    ExperienceReplayBuffer.load .corrupt BUFFER_SIZE [demoExpC4] = .ok ([], 0, 0) ∧
    (ExperienceReplayBuffer.load .corrupt BUFFER_SIZE [demoExpC4]).isOk = true := by
  exact ⟨rfl, rfl⟩

/-- Claim C4 (amended): `ExperienceReplayBuffer.load` filters out every
transition whose `state` or `next_state` fails the shape validation,
reporting kept vs. skipped counts, and never raises at all: an absent file
leaves the buffer unchanged, while corrupt/unreadable storage is caught by
the bare `except` and the buffer is silently reset to empty — it does not
propagate as an error. -/
theorem buffer_load_behavior (cap : ℕ) (buf exps : List Experience) :
    (∀ fc, (ExperienceReplayBuffer.load fc cap buf).isOk = true) ∧
    ExperienceReplayBuffer.load .missing cap buf = .ok (buf, 0, 0) ∧
    ExperienceReplayBuffer.load .corrupt cap buf = .ok ([], 0, 0) ∧
    (∀ b k s, ExperienceReplayBuffer.load (.good exps) cap buf = .ok (b, k, s) →
      (∀ e ∈ b, validate_state_shape e.state = true ∧
        validate_state_shape e.next_state = true) ∧
      k = (exps.filter fun e =>
        validate_state_shape e.state && validate_state_shape e.next_state).length ∧
      k + s = exps.length ∧
      b.length ≤ cap) := by
  refine ⟨fun fc => ?_, rfl, rfl, fun b k s h => ?_⟩
  · cases fc <;> rfl
  · simp only [ExperienceReplayBuffer.load, Except.ok.injEq, Prod.mk.injEq] at h
    obtain ⟨hb, hk, hs⟩ := h
    have hkle : (exps.filter fun e =>
        validate_state_shape e.state && validate_state_shape e.next_state).length ≤
          exps.length := List.length_filter_le _ _
    refine ⟨?_, hk.symm, ?_, ?_⟩
    · intro e he
      rw [← hb] at he
      have he' : e ∈ exps.filter fun e =>
          validate_state_shape e.state && validate_state_shape e.next_state :=
        List.drop_subset _ _ he
      have := List.of_mem_filter he'
      exact ⟨by simpa using (Bool.and_eq_true _ _).mp (by simpa using this) |>.1,
             by simpa using (Bool.and_eq_true _ _).mp (by simpa using this) |>.2⟩
    · omega
    · rw [← hb]
      unfold dequeTail
      simp only [List.length_drop]
      omega

/-- Claim C4 witness: the amended statement at concrete inputs — a missing
file, a corrupt file, and a readable file holding one shape-incompatible
experience (kept `0`, skipped `1`). -/
theorem buffer_load_behavior_witness :
    (ExperienceReplayBuffer.load .missing 50 [] = .ok ([], 0, 0)) ∧
    (ExperienceReplayBuffer.load .corrupt 50 [] = .ok ([], 0, 0)) ∧
    (∀ e ∈ ([] : List Experience), validate_state_shape e.state = true ∧
      validate_state_shape e.next_state = true) ∧
    (0 : ℕ) + 1 = [demoExpC4].length := by
  obtain ⟨h1, h2, h3, h4⟩ := buffer_load_behavior 50 [] [demoExpC4]
  have h5 := h4 [] 0 1 (by rfl)
  exact ⟨h2, h3, h5.1, h5.2.2.1⟩

theorem dictSet_any_self (m : SessionMap) (k : String) (v : TradingSession) :
    ((dictSet m k v).any fun p => p.1 = k) = true := by
  unfold dictSet
  split
  · rename_i hmem
    rw [List.any_eq_true] at hmem ⊢
    obtain ⟨p, hp, hpk⟩ := hmem
    refine ⟨(k, v), List.mem_map.mpr ⟨p, hp, ?_⟩, by simp⟩
    rw [if_pos (by simpa using hpk)]
  · rw [List.any_eq_true]
    exact ⟨(k, v), List.mem_append.mpr (Or.inr (List.mem_singleton.mpr rfl)), by simp⟩

theorem dictSet_any_ne (m : SessionMap) (k d : String) (v : TradingSession)
    (hne : k ≠ d) :
    ((dictSet m k v).any fun p => p.1 = d) = (m.any fun p => p.1 = d) := by
  unfold dictSet
  split
  · rw [Bool.eq_iff_iff, List.any_eq_true, List.any_eq_true]
    constructor
    · rintro ⟨p, hp, hpd⟩
      obtain ⟨q, hq, hqp⟩ := List.mem_map.mp hp
      by_cases hqk : q.1 = k
      · rw [if_pos hqk] at hqp
        rw [← hqp] at hpd
        simp at hpd
        exact absurd hpd hne
      · rw [if_neg hqk] at hqp
        exact ⟨q, hq, by rw [hqp]; exact hpd⟩
    · rintro ⟨p, hp, hpd⟩
      by_cases hpk : p.1 = k
      · rw [decide_eq_true_eq] at hpd
        rw [hpd] at hpk
        exact absurd hpk (fun h => hne h.symm)
      · exact ⟨p, List.mem_map.mpr ⟨p, hp, by rw [if_neg hpk]⟩, hpd⟩
  · rw [Bool.eq_iff_iff, List.any_eq_true, List.any_eq_true]
    constructor
    · rintro ⟨p, hp, hpd⟩
      rcases List.mem_append.mp hp with hm | hs
      · exact ⟨p, hm, hpd⟩
      · rw [List.mem_singleton.mp hs] at hpd
        simp at hpd
        exact absurd hpd hne
    · rintro ⟨p, hp, hpd⟩
      exact ⟨p, List.mem_append.mpr (Or.inl hp), hpd⟩

theorem countKey_dictSet_self (m : SessionMap) (k : String) (v : TradingSession)
    (h : countKey m k ≤ 1) : countKey (dictSet m k v) k = 1 := by
  unfold dictSet
  split
  · rename_i hmem
    rw [List.any_eq_true] at hmem
    obtain ⟨p, hp, hpk⟩ := hmem
    rw [decide_eq_true_eq] at hpk
    have hcnt : countKey m k ≠ 0 := by
      unfold countKey
      intro hc
      rw [List.length_eq_zero] at hc
      have : p ∈ m.filter fun q => q.1 = k :=
        List.mem_filter.mpr ⟨hp, by simpa using hpk⟩
      rw [hc] at this
      exact absurd this (List.not_mem_nil p)
    have h1 : countKey m k = 1 := by omega
    unfold countKey at h1 ⊢
    rw [List.filter_map]
    rw [List.length_map]
    have : (List.filter ((fun q => decide (q.1 = k)) ∘ fun p =>
        if p.1 = k then (k, v) else p) m).length =
        (List.filter (fun q => decide (q.1 = k)) m).length := by
      congr 1
      apply List.filter_congr
      intro q hq
      by_cases hqk : q.1 = k
      · simp [Function.comp, hqk]
      · simp [Function.comp, hqk]
    rw [this]
    exact h1
  · unfold countKey at h ⊢
    rename_i hmem
    rw [List.filter_append]
    have hz : (m.filter fun q => q.1 = k).length = 0 := by
      rw [List.length_eq_zero, List.filter_eq_nil_iff]
      intro p hp
      intro hpk
      exact hmem (List.any_eq_true.mpr ⟨p, hp, hpk⟩)
    simp only [List.length_append, hz]
    simp

theorem dictSet_dictSet (m : SessionMap) (k : String) (v w : TradingSession) :
    dictSet (dictSet m k v) k w = dictSet m k w := by
  unfold dictSet
  by_cases hmem : m.any fun p => p.1 = k
  · rw [if_pos hmem]
    have hmem2 : ((m.map fun p => if p.1 = k then (k, v) else p).any
        fun p => p.1 = k) = true := by
      rw [List.any_eq_true] at hmem ⊢
      obtain ⟨p, hp, hpk⟩ := hmem
      refine ⟨(k, v), List.mem_map.mpr ⟨p, hp, ?_⟩, by simp⟩
      rw [if_pos (by simpa using hpk)]
    rw [if_pos hmem2, List.map_map, if_pos hmem]
    congr 1
    funext p
    by_cases hpk : p.1 = k
    · simp [Function.comp, hpk]
    · simp [Function.comp, hpk]
  · rw [if_neg hmem]
    have hfalse : (m.any fun p => p.1 = k) = false := by
      cases h : m.any fun p => p.1 = k
      · rfl
      · exact absurd h hmem
    have hmem2 : ((m ++ [(k, v)]).any fun p => p.1 = k) = true := by
      rw [List.any_eq_true]
      exact ⟨(k, v), List.mem_append.mpr (Or.inr (List.mem_singleton.mpr rfl)), by simp⟩
    rw [if_pos hmem2, if_neg hmem, List.map_append]
    have hid : ∀ (l : SessionMap), (l.any fun p => p.1 = k) = false →
        (l.map fun p => if p.1 = k then (k, w) else p) = l := by
      intro l hl
      induction l with
      | nil => rfl
      | cons p t ih =>
          simp only [List.any_cons, Bool.or_eq_false_iff] at hl
          simp only [List.map_cons]
          rw [if_neg (by simpa using hl.1), ih hl.2]
    rw [hid m hfalse]
    simp

theorem foldl_dictSet_no_key (d : String) :
    ∀ (calls : List (String × TradingSession)) (acc : SessionMap),
      d ∉ calls.map Prod.fst → (acc.any fun p => p.1 = d) = false →
      ((calls.foldl (fun m c => dictSet m c.1 c.2) acc).any fun p => p.1 = d) = false := by
  intro calls
  induction calls with
  | nil => intro acc _ hacc; exact hacc
  | cons c t ih =>
      intro acc hd hacc
      simp only [List.map_cons, List.mem_cons] at hd
      push_neg at hd
      simp only [List.foldl_cons]
      refine ih _ hd.2 ?_
      rw [dictSet_any_ne _ _ _ _ (fun h => hd.1 h.symm)]
      exact hacc

/-- Claim C9: for every date `d`, `has_traded` is false on a missing log
and on any log built by `record` calls for other dates, and true
immediately after a `record(d, ...)`; a second `record` for the same date
overwrites that date's entry (same key, new value, no duplicate), so the
map holds exactly one record for `d` afterwards. -/
theorem session_guard_correct (d : String) (s s2 : TradingSession)
    (file : Option SessionMap) (calls : List (String × TradingSession))
    (hd : d ∉ calls.map Prod.fst) (hu : countKey (file.getD []) d ≤ 1) :
    has_traded_today d none = false ∧
    has_traded_today d (some (applyRecords calls)) = false ∧
    has_traded_today d (some (record_trading_session d s file)) = true ∧
    countKey (record_trading_session d s file) d = 1 ∧
    record_trading_session d s2 (some (record_trading_session d s file)) =
      record_trading_session d s2 file := by
  refine ⟨rfl, ?_, ?_, ?_, ?_⟩
  · unfold has_traded_today applyRecords
    exact foldl_dictSet_no_key d calls [] hd rfl
  · unfold has_traded_today record_trading_session
    exact dictSet_any_self _ d s
  · unfold record_trading_session
    exact countKey_dictSet_self _ d s hu
  · unfold record_trading_session
    simp only [Option.getD_some]
    exact dictSet_dictSet _ d s s2

/-- Claim C9 witness: the guard behavior at a concrete date, a one-call
history for a different date, and a missing session file. -/
theorem session_guard_correct_witness :
    has_traded_today dateA none = false ∧
    has_traded_today dateA (some (applyRecords [(dateB, demoSessionA)])) = false ∧
    has_traded_today dateA (some (record_trading_session dateA demoSessionA none)) = true ∧
    countKey (record_trading_session dateA demoSessionA none) dateA = 1 ∧
    record_trading_session dateA demoSessionB
        (some (record_trading_session dateA demoSessionA none)) =
      record_trading_session dateA demoSessionB none :=
  session_guard_correct dateA demoSessionA demoSessionB none [(dateB, demoSessionA)]
    (by simp [dateA, dateB]) (by simp [countKey])

theorem mem_constructionTrace (d : ClassDefaults) :
    ∀ (n rng : ℕ) (e : PortfolioEnv), e ∈ constructionTrace d rng n →
      e = ⟨d.initial_cash, d.initial_shares⟩ := by
  intro n
  induction n with
  | zero => intro rng e he; exact absurd he (List.not_mem_nil e)
  | succ m ih =>
      intro rng e he
      rw [constructionTrace] at he
      rcases List.mem_cons.mp he with h | h
      · rw [h]; rfl
      · exact ih _ e h

theorem randUniform_bounds (s : ℕ) :
    1500 ≤ randUniform 1500 10000 s ∧ randUniform 1500 10000 s ≤ 10000 := by
  unfold randUniform
  set k : ℕ := lcgNext s % 1000000 with hkdef
  have hk : k < 1000000 := Nat.mod_lt _ (by norm_num)
  have h0 : (0 : ℚ) ≤ (k : ℚ) := Nat.cast_nonneg k
  have h1 : (k : ℚ) ≤ 1000000 := by exact_mod_cast le_of_lt hk
  constructor
  · linarith
  · linarith

theorem randIntInclusive_bounds (s : ℕ) :
    0 ≤ randIntInclusive 0 10 s ∧ randIntInclusive 0 10 s ≤ 10 := by
  unfold randIntInclusive
  have h0 : 0 ≤ (lcgNext s : ℤ) % (10 - 0 + 1) := Int.emod_nonneg _ (by norm_num)
  have h1 : (lcgNext s : ℤ) % (10 - 0 + 1) < 10 - 0 + 1 := Int.emod_lt_of_pos _ (by norm_num)
  omega

theorem portfolioEnvironmentDefaults_bounds (seed : ℕ) :
    1500 ≤ (portfolioEnvironmentDefaults seed).initial_cash ∧
    (portfolioEnvironmentDefaults seed).initial_cash ≤ 10000 ∧
    0 ≤ (portfolioEnvironmentDefaults seed).initial_shares ∧
    (portfolioEnvironmentDefaults seed).initial_shares ≤ 10 :=
  ⟨(randUniform_bounds seed).1, (randUniform_bounds seed).2,
   (randIntInclusive_bounds (lcgNext seed)).1, (randIntInclusive_bounds (lcgNext seed)).2⟩

/-- Claim C10: the default arguments of `PortfolioEnvironment.__init__` are
evaluated once at class-definition time, so within one process trace every
default-constructed environment carries the same initial cash (a single
uniform draw from `[1500, 10000]`) and the same initial share count (a
single draw from `0..10`) as every other, regardless of the generator state
at each construction. -/
theorem default_construction_shared (seed rng n : ℕ) (e₁ e₂ : PortfolioEnv)
    (h₁ : e₁ ∈ constructionTrace (portfolioEnvironmentDefaults seed) rng n)
    (h₂ : e₂ ∈ constructionTrace (portfolioEnvironmentDefaults seed) rng n) :
    e₁.cash = e₂.cash ∧ e₁.shares = e₂.shares ∧
    1500 ≤ e₁.cash ∧ e₁.cash ≤ 10000 ∧ 0 ≤ e₁.shares ∧ e₁.shares ≤ 10 := by
  have hb := portfolioEnvironmentDefaults_bounds seed
  rw [mem_constructionTrace _ n rng e₁ h₁, mem_constructionTrace _ n rng e₂ h₂]
  exact ⟨rfl, rfl, hb.1, hb.2.1, hb.2.2.1, hb.2.2.2⟩

/-- Claim C10 witness: the first two default constructions of one process
trace (seed `1`, two constructions from generator state `7`) agree on cash
and shares. -/
theorem default_construction_shared_witness :
    (defaultConstruct (portfolioEnvironmentDefaults 1) 7).cash =
      (defaultConstruct (portfolioEnvironmentDefaults 1) (lcgNext 7)).cash ∧
    (defaultConstruct (portfolioEnvironmentDefaults 1) 7).shares =
      (defaultConstruct (portfolioEnvironmentDefaults 1) (lcgNext 7)).shares :=
  have h := default_construction_shared 1 7 2
    (defaultConstruct (portfolioEnvironmentDefaults 1) 7)
    (defaultConstruct (portfolioEnvironmentDefaults 1) (lcgNext 7))
    (List.mem_cons_self _ _)
    (List.mem_cons_of_mem _ (List.mem_cons_self _ _))
  ⟨h.1, h.2.1⟩
